import Mathlib

/-!
Verification model of the chunked multi-track broadcast writer of
react-native-nitro-screen-recorder.

Times (CMTime values) are modeled as rationals measured in seconds; an
invalid or indefinite duration is encoded as a nonpositive rational, which
matches every use of isPositiveTime in the source.  Encoder readiness and
append results, which depend on the real-time encoder, are supplied by
explicit environment records.  Shared UserDefaults storage is a record of
the keys the source reads and writes, with Option fields for keys that may
be absent.
-/

namespace NSR

/-- Round half away from zero, as Double.rounded() and CMTimeConvertScale
with the roundHalfAwayFromZero method compute it. -/
def rhaz (q : ℚ) : ℤ := if 0 ≤ q then ⌊q + 1/2⌋ else -⌊-q + 1/2⌋

inductive WriterStatus where
  | unknown
  | writing
  | completed
  | failed
  | cancelled
deriving DecidableEq

/-- The audio stream description data used for silence synthesis; only the
sample rate is relevant to the timing model. -/
structure AudioFormat where
  sampleRate : ℚ
deriving DecidableEq

inductive BufferKind where
  | video
  | audioMic
  | audioApp
deriving DecidableEq

/-- A sample buffer handed to processSampleBuffer: presentation time,
duration (nonpositive encodes missing or invalid), sample count and format
for audio, and the validity flags checked at entry. -/
structure Frame where
  kind : BufferKind
  pts : ℚ
  duration : ℚ
  numSamples : ℕ
  format : AudioFormat
  valid : Bool
  dataReady : Bool
deriving DecidableEq

/-- The mutable state of one BroadcastWriter (BroadcastWriter.swift lines
44 to 102), together with the track contents: each track records the
presentation times of the buffers that were actually appended to it. -/
structure WriterState where
  assetWriterSessionStarted : Bool
  audioSessionStarted : Bool
  appAudioSessionStarted : Bool
  sessionStartTime : Option ℚ
  lastVideoEndTime : ℚ
  lastVideoPTS : Option ℚ
  lastVideoFrameDuration : ℚ
  lastMicEndTime : ℚ
  lastAppAudioEndTime : ℚ
  micFormat : Option AudioFormat
  appFormat : Option AudioFormat
  separateAudioFile : Bool
  hasSepWriter : Bool
  hasAppWriter : Bool
  mainStatus : WriterStatus
  micWriterStatus : WriterStatus
  appWriterStatus : WriterStatus
  outputURL : String
  audioOutputURL : String
  appAudioOutputURL : String
  videoTrack : List ℚ
  mainMicTrack : List ℚ
  sepMicTrack : List ℚ
  appTrack : List ℚ
deriving DecidableEq

/-- Per-call encoder environment: input readiness and the result the
underlying AVAssetWriterInput append would return, plus the device audio
sample rate. -/
structure FrameEnv where
  videoInputReady : Bool
  micInputReady : Bool
  sepInputReady : Bool
  appInputReady : Bool
  videoAppendOk : Bool
  micAppendOk : Bool
  sepAppendOk : Bool
  appAppendOk : Bool
  deviceSampleRate : ℚ
deriving DecidableEq

/-- BroadcastWriter.startSessionIfNeeded (lines 576 to 586): the first
video frame records the shared session start time and opens the session. -/
def startSessionIfNeeded (w : WriterState) (b : Frame) : WriterState :=
  if w.assetWriterSessionStarted then w
  else { w with sessionStartTime := some b.pts, assetWriterSessionStarted := true }

/-- BroadcastWriter.startAudioSessionIfNeeded (lines 588 to 601). -/
def startAudioSessionIfNeeded (w : WriterState) : WriterState :=
  if w.audioSessionStarted = false ∧ w.hasSepWriter = true
      ∧ w.micWriterStatus = .writing ∧ w.sessionStartTime.isSome then
    { w with audioSessionStarted := true }
  else w

/-- BroadcastWriter.startAppAudioSessionIfNeeded (lines 603 to 616). -/
def startAppAudioSessionIfNeeded (w : WriterState) : WriterState :=
  if w.appAudioSessionStarted = false ∧ w.hasAppWriter = true
      ∧ w.appWriterStatus = .writing ∧ w.sessionStartTime.isSome then
    { w with appAudioSessionStarted := true }
  else w

/-- The frame duration that captureVideoOutput ends up using (lines 623 to
636): the source duration when positive, else the positive delta to the
previous video presentation time, else the last used frame duration when
positive, else the nominal 1/60 second. -/
def videoDurationUsed (w : WriterState) (b : Frame) : ℚ :=
  let d0 := b.duration
  let d1 :=
    if ¬ 0 < d0 then
      match w.lastVideoPTS with
      | some p => if 0 < b.pts - p then b.pts - p else d0
      | none => d0
    else d0
  if ¬ 0 < d1 then
    if 0 < w.lastVideoFrameDuration then w.lastVideoFrameDuration else (1 : ℚ) / 60
  else d1

/-- BroadcastWriter.captureVideoOutput (lines 618 to 649). -/
def captureVideoOutput (env : FrameEnv) (w : WriterState) (b : Frame) :
    Bool × WriterState :=
  if env.videoInputReady = false then (false, w)
  else
    let d := videoDurationUsed w b
    let endTime := if 0 < d then b.pts + d else b.pts
    if env.videoAppendOk then
      (true,
        { w with
          videoTrack := w.videoTrack ++ [b.pts]
          lastVideoFrameDuration := if 0 < d then d else w.lastVideoFrameDuration
          lastVideoPTS := some b.pts
          lastVideoEndTime :=
            if w.lastVideoEndTime < endTime then endTime else w.lastVideoEndTime })
    else (false, w)

/-- BroadcastWriter.audioSampleDuration (lines 974 to 996): the buffer
duration when positive, else the sample count divided by the rounded
sample rate of the known format. -/
def audioSampleDuration (device : ℚ) (b : Frame) (fmt : Option AudioFormat) : ℚ :=
  if 0 < b.duration then b.duration
  else
    match fmt with
    | some f =>
      let rate := if 0 < f.sampleRate then f.sampleRate else device
      if 0 < rate then
        let ts := rhaz rate
        if 0 < ts then (b.numSamples : ℚ) / (ts : ℚ) else 0
      else 0
    | none => 0

/-- BroadcastWriter.captureMicrophoneOutput (lines 659 to 675): the main
container microphone track. -/
def captureMicrophoneOutput (env : FrameEnv) (w : WriterState) (b : Frame) :
    Bool × WriterState :=
  if env.micInputReady = false then (false, w)
  else
    match w.sessionStartTime with
    | none => (false, w)
    | some st =>
      if b.pts < st then (false, w)
      else if env.micAppendOk then
        (true, { w with mainMicTrack := w.mainMicTrack ++ [b.pts] })
      else (false, w)

/-- BroadcastWriter.captureSeparateAudioOutput (lines 677 to 718): the
separate mic audio container. -/
def captureSeparateAudioOutput (env : FrameEnv) (w : WriterState) (b : Frame) :
    Bool × WriterState :=
  if ¬ (w.separateAudioFile = true ∧ w.hasSepWriter = true) then (false, w)
  else if ¬ w.micWriterStatus = .writing then (false, w)
  else
    match w.sessionStartTime with
    | none => (false, w)
    | some st =>
      let w1 := startAudioSessionIfNeeded w
      if b.pts < st then (false, w1)
      else
        let w2 := if w1.micFormat = none then { w1 with micFormat := some b.format } else w1
        let d := audioSampleDuration env.deviceSampleRate b w2.micFormat
        let endTime := if 0 < d then b.pts + d else b.pts
        if env.sepInputReady = false then (false, w2)
        else if env.sepAppendOk then
          (true,
            { w2 with
              sepMicTrack := w2.sepMicTrack ++ [b.pts]
              lastMicEndTime :=
                if w2.lastMicEndTime < endTime then endTime else w2.lastMicEndTime })
        else (false, w2)

/-- BroadcastWriter.captureAppAudioOutput (lines 720 to 761): the separate
app audio container. -/
def captureAppAudioOutput (env : FrameEnv) (w : WriterState) (b : Frame) :
    Bool × WriterState :=
  if ¬ (w.separateAudioFile = true ∧ w.hasAppWriter = true) then (false, w)
  else if ¬ w.appWriterStatus = .writing then (false, w)
  else
    match w.sessionStartTime with
    | none => (false, w)
    | some st =>
      let w1 := startAppAudioSessionIfNeeded w
      if b.pts < st then (false, w1)
      else
        let w2 := if w1.appFormat = none then { w1 with appFormat := some b.format } else w1
        let d := audioSampleDuration env.deviceSampleRate b w2.appFormat
        let endTime := if 0 < d then b.pts + d else b.pts
        if env.appInputReady = false then (false, w2)
        else if env.appAppendOk then
          (true,
            { w2 with
              appTrack := w2.appTrack ++ [b.pts]
              lastAppAudioEndTime :=
                if w2.lastAppAudioEndTime < endTime then endTime else w2.lastAppAudioEndTime })
        else (false, w2)

/-- BroadcastWriter.processSampleBuffer (lines 326 to 396): validity and
status guards, the session-start gate for audio, and dispatch per kind.
App audio returns true without touching the main container; mic audio is
routed to the separate mic container first and then to the main container
microphone track. -/
def processSampleBuffer (env : FrameEnv) (w : WriterState) (b : Frame) :
    Bool × WriterState :=
  if ¬ (b.valid = true ∧ b.dataReady = true) then (false, w)
  else if ¬ w.mainStatus = .writing then (false, w)
  else
    match b.kind with
    | .video =>
      let w1 := startSessionIfNeeded w b
      captureVideoOutput env w1 b
    | .audioApp =>
      if w.sessionStartTime.isNone then (false, w)
      else
        let w1 := if w.separateAudioFile then (captureAppAudioOutput env w b).2 else w
        (true, w1)
    | .audioMic =>
      if w.sessionStartTime.isNone then (false, w)
      else
        let w1 := if w.separateAudioFile then (captureSeparateAudioOutput env w b).2 else w
        captureMicrophoneOutput env w1 b

/-! ### Audio padding engine (BroadcastWriter.swift lines 763 to 966) -/

/-- The fallback silence format built by defaultAudioFormatDescription
(lines 63 to 92): the device sample rate when positive, else 48000. -/
def defaultAudioFormat (device : ℚ) : AudioFormat :=
  { sampleRate := if 0 < device then device else 48000 }

/-- The sample rate appendSilence works at (line 844): the format rate when
positive, else the device rate. -/
def effectiveRate (device : ℚ) (f : AudioFormat) : ℚ :=
  if 0 < f.sampleRate then f.sampleRate else device

/-- The chunked silence append loop (lines 874 to 963): each iteration
checks readiness and writes min(remaining, 1024) samples.  Returns the
total number of samples appended. -/
def silenceLoop (ready : ℕ → Bool) (idx rem : ℕ) : ℕ :=
  if h : rem = 0 then 0
  else if ready idx then
    let w := min rem 1024
    w + silenceLoop ready (idx + 1) (rem - w)
  else 0
termination_by rem
decreasing_by
  have h1 : 1 ≤ min rem 1024 := le_min (Nat.one_le_iff_ne_zero.mpr h) (by norm_num)
  omega

/-- Total silent samples appended by appendSilence (lines 823 to 966): the
requested duration converted to whole samples at the rounded effective
sample rate, written by the chunked loop. -/
def appendSilenceTotal (ready : ℕ → Bool) (device : ℚ) (fmt : Option AudioFormat)
    (dur : ℚ) : ℕ :=
  if ¬ 0 < dur then 0
  else
    let f := fmt.getD (defaultAudioFormat device)
    let rate := effectiveRate device f
    let ts := rhaz rate
    if ¬ 0 < ts then 0
    else
      let n := rhaz (dur * (ts : ℚ))
      if ¬ 0 < n then 0
      else silenceLoop ready 0 n.toNat

/-- Per-finish environment: padding readiness oracles, the outcome of each
finishWriting call, and the device sample rate. -/
structure FinishEnv where
  micReady : ℕ → Bool
  appReady : ℕ → Bool
  mainFinishOk : Bool
  micFinishOk : Bool
  appFinishOk : Bool
  deviceSampleRate : ℚ

/-- Silent samples appended to the separate mic track by
padAudioToVideoLength (lines 766 to 795), including the guard of
finishWithAudio on a positive last video end time (line 467). -/
def micPadSamples (env : FinishEnv) (w : WriterState) : ℕ :=
  if 0 < w.lastVideoEndTime ∧ w.sessionStartTime.isSome
      ∧ w.separateAudioFile = true ∧ w.hasSepWriter = true
      ∧ w.micWriterStatus = .writing then
    let st := w.sessionStartTime.getD 0
    let start := if 0 < w.lastMicEndTime then w.lastMicEndTime else st
    if start < w.lastVideoEndTime then
      appendSilenceTotal env.micReady env.deviceSampleRate w.micFormat
        (w.lastVideoEndTime - start)
    else 0
  else 0

/-- The timescale the mic padding writes at: the rounded effective sample
rate of the known mic format, or of the default format. -/
def micPadTimescale (env : FinishEnv) (w : WriterState) : ℤ :=
  rhaz (effectiveRate env.deviceSampleRate
    (w.micFormat.getD (defaultAudioFormat env.deviceSampleRate)))

/-- End time of the separate mic audio track after finish: the last
written frame end (or the session start for a track with no accepted
frame) plus the appended silence. -/
def micFileEnd (env : FinishEnv) (w : WriterState) : ℚ :=
  let st := w.sessionStartTime.getD 0
  let base := if 0 < w.lastMicEndTime then w.lastMicEndTime else st
  base + (micPadSamples env w : ℚ) / ((micPadTimescale env w : ℤ) : ℚ)

/-- Duration of the produced video track: last video end time relative to
the session start time. -/
def videoDuration (w : WriterState) : ℚ :=
  w.lastVideoEndTime - w.sessionStartTime.getD 0

/-- Duration of the produced separate mic audio track after finish. -/
def micAudioDuration (env : FinishEnv) (w : WriterState) : ℚ :=
  micFileEnd env w - w.sessionStartTime.getD 0

/-- Silent samples appended to the separate app audio track by
padAudioToVideoLength (lines 797 to 819), with finishWithAudio's guard on
a positive last video end time (line 467). -/
def appPadSamples (env : FinishEnv) (w : WriterState) : ℕ :=
  if 0 < w.lastVideoEndTime ∧ w.sessionStartTime.isSome
      ∧ w.separateAudioFile = true ∧ w.hasAppWriter = true
      ∧ w.appWriterStatus = .writing then
    let st := w.sessionStartTime.getD 0
    let start := if 0 < w.lastAppAudioEndTime then w.lastAppAudioEndTime else st
    if start < w.lastVideoEndTime then
      appendSilenceTotal env.appReady env.deviceSampleRate w.appFormat
        (w.lastVideoEndTime - start)
    else 0
  else 0

/-- The timescale the app audio padding writes at: the rounded effective
sample rate of the known app audio format, or of the default format. -/
def appPadTimescale (env : FinishEnv) (w : WriterState) : ℤ :=
  rhaz (effectiveRate env.deviceSampleRate
    (w.appFormat.getD (defaultAudioFormat env.deviceSampleRate)))

/-- End time of the separate app audio track after finish: the last
written frame end (or the session start for a track with no accepted
frame) plus the appended silence. -/
def appFileEnd (env : FinishEnv) (w : WriterState) : ℚ :=
  let st := w.sessionStartTime.getD 0
  let base := if 0 < w.lastAppAudioEndTime then w.lastAppAudioEndTime else st
  base + (appPadSamples env w : ℚ) / ((appPadTimescale env w : ℤ) : ℚ)

/-- Duration of the produced separate app audio track after finish. -/
def appAudioDuration (env : FinishEnv) (w : WriterState) : ℚ :=
  appFileEnd env w - w.sessionStartTime.getD 0

/-- State effect of padAudioToVideoLength (lines 766 to 820): opening the
separate audio sessions at the shared start time when they were not yet
started; the padded samples themselves are tracked by micPadSamples. -/
def padAudioToVideoLength (w : WriterState) : WriterState :=
  if ¬ (0 < w.lastVideoEndTime ∧ w.sessionStartTime.isSome) then w
  else
    let w1 :=
      if w.separateAudioFile = true ∧ w.hasSepWriter = true
          ∧ w.micWriterStatus = .writing then
        { w with audioSessionStarted := true }
      else w
    if w1.separateAudioFile = true ∧ w1.hasAppWriter = true
        ∧ w1.appWriterStatus = .writing then
      { w1 with appAudioSessionStarted := true }
    else w1

/-! ### finish (BroadcastWriter.swift lines 440 to 571) -/

inductive FinishError where
  | wrongAssetWriterStatus (st : WriterStatus)
  | selfDeallocated
deriving DecidableEq

structure FinishResult where
  videoURL : String
  audioURL : Option String
  appAudioURL : Option String
deriving DecidableEq

/-- BroadcastWriter.finishWithAudio (lines 450 to 571).  With no video
frame ever accepted the session never started: all writers are cancelled
and a wrongAssetWriterStatus(.cancelled) error is thrown.  Otherwise audio
is padded, the main writer finishes, and each enabled separate audio
writer that is still writing finishes; a separate writer that fails to
finish just yields no URL. -/
def finishWithAudio (env : FinishEnv) (w : WriterState) :
    Except FinishError FinishResult × WriterState :=
  if w.assetWriterSessionStarted = false then
    (Except.error (.wrongAssetWriterStatus .cancelled),
      { w with
        mainStatus := .cancelled
        micWriterStatus := if w.hasSepWriter then .cancelled else w.micWriterStatus
        appWriterStatus := if w.hasAppWriter then .cancelled else w.appWriterStatus })
  else
    let w1 := if 0 < w.lastVideoEndTime then padAudioToVideoLength w else w
    if ¬ w1.mainStatus = .writing then
      (Except.error (.wrongAssetWriterStatus w1.mainStatus), w1)
    else if env.mainFinishOk = false then
      (Except.error (.wrongAssetWriterStatus .failed), { w1 with mainStatus := .failed })
    else
      let w2 := { w1 with mainStatus := .completed }
      let p3 :=
        if w2.separateAudioFile = true ∧ w2.hasSepWriter = true
            ∧ w2.micWriterStatus = .writing then
          if env.micFinishOk then
            (some w2.audioOutputURL, { w2 with micWriterStatus := WriterStatus.completed })
          else (none, { w2 with micWriterStatus := WriterStatus.failed })
        else ((none : Option String), w2)
      let p4 :=
        if p3.2.separateAudioFile = true ∧ p3.2.hasAppWriter = true
            ∧ p3.2.appWriterStatus = .writing then
          if env.appFinishOk then
            (some p3.2.appAudioOutputURL,
              { p3.2 with appWriterStatus := WriterStatus.completed })
          else (none, { p3.2 with appWriterStatus := WriterStatus.failed })
        else ((none : Option String), p3.2)
      (Except.ok { videoURL := w.outputURL, audioURL := p3.1, appAudioURL := p4.1 }, p4.2)

/-! ### Chunk handoff queue and shared storage (part_004 of src/unnamed) -/

/-- One PendingChunks queue entry (part_004 lines 1133 to 1148): file
references bundled with the chunk id and flags. -/
structure ChunkEntry where
  video : String
  chunkId : Option String
  micAudio : Option String
  appAudio : Option String
  micEnabled : Bool
  hadSeparateAudio : Bool
  timestamp : ℚ
deriving DecidableEq

/-- The shared app-group UserDefaults keys this core reads and writes; an
Option field is none when the key is absent. -/
structure SharedDefaults where
  pendingChunks : List ChunkEntry
  currentChunkId : Option String
  extensionMicActive : Option Bool
  extensionCapturing : Option Bool
  extensionChunkStartedAt : Option ℚ
  extensionHeartbeat : Option ℚ
deriving DecidableEq

/-- The mutable state of the SampleHandler (part_004 lines 611 to 632 and
864 to 867).  writerId is the identity of the currently installed writer
set; nextWriterId feeds createNewWriter. -/
structure HandlerState where
  writer : Option WriterState
  writerId : ℕ
  nextWriterId : ℕ
  sawMicBuffers : Bool
  separateAudioFile : Bool
  isCapturing : Bool
  chunkStartedAt : ℚ
  frameCount : ℕ
  lastMarkChunkTime : ℚ
  lastFinalizeChunkTime : ℚ
  pendingChunkId : Option String
  defaults : SharedDefaults
deriving DecidableEq

/-- Observable cross-process effects of a chunk operation, in order. -/
inductive HandlerEvent where
  | publishRecord (e : ChunkEntry)
  | chunkSaved
deriving DecidableEq

/-- SampleHandler.updateExtensionStatus (part_004 lines 833 to 843): the
status snapshot written to shared storage. -/
def updateExtensionStatus (hasGroup : Bool) (s : HandlerState) : HandlerState :=
  if hasGroup then
    { s with
      defaults :=
        { s.defaults with
          extensionMicActive := some s.sawMicBuffers
          extensionCapturing := some s.isCapturing
          extensionChunkStartedAt := some s.chunkStartedAt } }
  else s

/-- SampleHandler.clearExtensionStatus (part_004 lines 1319 to 1328). -/
def clearExtensionStatus (hasGroup : Bool) (s : HandlerState) : HandlerState :=
  if hasGroup then
    { s with
      defaults :=
        { s.defaults with
          extensionMicActive := none
          extensionCapturing := none
          extensionChunkStartedAt := none } }
  else s

/-- SampleHandler.cleanupOldRecordings (part_004 lines 775 to 802): old
media files are deleted and the stale PendingChunks queue and
CurrentChunkId key are cleared. -/
def cleanupOldRecordings (d : SharedDefaults) : SharedDefaults :=
  { d with pendingChunks := [], currentChunkId := none }

/-- The writer produced by a successful createNewWriter attempt after
BroadcastWriter.init and start: fresh timestamps and formats, a writing
main writer, and writing separate writers when enabled; file URLs are
derived from the attempt counter standing in for the fresh UUID. -/
def freshWriter (sep : Bool) (n : ℕ) : WriterState :=
  { assetWriterSessionStarted := false
    audioSessionStarted := false
    appAudioSessionStarted := false
    sessionStartTime := none
    lastVideoEndTime := 0
    lastVideoPTS := none
    lastVideoFrameDuration := 0
    lastMicEndTime := 0
    lastAppAudioEndTime := 0
    micFormat := none
    appFormat := none
    separateAudioFile := sep
    hasSepWriter := sep
    hasAppWriter := sep
    mainStatus := .writing
    micWriterStatus := if sep then .writing else .unknown
    appWriterStatus := if sep then .writing else .unknown
    outputURL := "video-" ++ toString n
    audioOutputURL := "mic-" ++ toString n
    appAudioOutputURL := "app-" ++ toString n
    videoTrack := []
    mainMicTrack := []
    sepMicTrack := []
    appTrack := [] }

/-- SampleHandler.createNewWriter (part_004 lines 990 to 1046): on success
a fresh started writer set is installed under a new identity; after all
attempts fail the handler is left without a writer. -/
def createNewWriter (ok : Bool) (s : HandlerState) : HandlerState :=
  if ok then
    { s with
      writer := some (freshWriter s.separateAudioFile s.nextWriterId)
      writerId := s.nextWriterId
      nextWriterId := s.nextWriterId + 1 }
  else { s with writer := none }

/-- SampleHandler.handleMarkChunk (part_004 lines 869 to 908): debounced
discard.  Within 100 ms of the previous call nothing happens; otherwise
the chunk id is captured from shared storage, the current writer is
finished and discarded, its files are deleted, and a fresh writer set is
installed. -/
def handleMarkChunk (now : ℚ) (env : FinishEnv) (hasGroup createOk : Bool)
    (s : HandlerState) : HandlerState :=
  if now - s.lastMarkChunkTime < 1/10 then s
  else
    let s1 := { s with lastMarkChunkTime := now, isCapturing := true, chunkStartedAt := now }
    let s2 := if hasGroup then { s1 with pendingChunkId := s1.defaults.currentChunkId } else s1
    let s3 :=
      match s2.writer with
      | some w => { s2 with writer := some (finishWithAudio env w).2 }
      | none => s2
    createNewWriter createOk s3

/-- Per-save environment: availability of the app group and container and
the outcome of each file move. -/
structure SaveEnv where
  hasGroup : Bool
  containerOk : Bool
  createDirOk : Bool
  moveVideoOk : Bool
  moveMicOk : Bool
  moveAppOk : Bool
deriving DecidableEq

/-- The PendingChunks upsert (part_004 lines 1150 to 1158): with a pending
chunk id, every record carrying the same id is removed, then the new entry
is appended; with no id the entry is just appended. -/
def upsertChunk (pid : Option String) (entry : ChunkEntry)
    (chunks : List ChunkEntry) : List ChunkEntry :=
  match pid with
  | some id => (chunks.filter fun c => decide (c.chunkId ≠ some id)) ++ [entry]
  | none => chunks ++ [entry]

/-- SampleHandler.saveChunkToContainer (part_004 lines 1053 to 1178).
Every early-out path still posts the chunkSaved signal; on success the
entry is published into the queue and the signal is posted afterwards, and
the pending chunk id is cleared. -/
def saveChunkToContainer (env : SaveEnv) (now : ℚ) (r : FinishResult)
    (s : HandlerState) : HandlerState × List HandlerEvent :=
  if env.hasGroup = false then (s, [.chunkSaved])
  else if env.containerOk = false then (s, [.chunkSaved])
  else if env.createDirOk = false then (s, [.chunkSaved])
  else if env.moveVideoOk = false then (s, [.chunkSaved])
  else
    let micName :=
      match r.audioURL with
      | some u => if env.moveMicOk then some u else none
      | none => none
    let appName :=
      match r.appAudioURL with
      | some u => if env.moveAppOk then some u else none
      | none => none
    let entry : ChunkEntry :=
      { video := r.videoURL
        chunkId := s.pendingChunkId
        micAudio := micName
        appAudio := appName
        micEnabled := s.sawMicBuffers
        hadSeparateAudio := s.separateAudioFile
        timestamp := now }
    let chunks := upsertChunk s.pendingChunkId entry s.defaults.pendingChunks
    ({ s with
        defaults := { s.defaults with pendingChunks := chunks }
        pendingChunkId := none },
      [.publishRecord entry, .chunkSaved])

/-- SampleHandler.handleFinalizeChunk (part_004 lines 914 to 984).
A duplicate within the 100 ms debounce window re-posts the chunkSaved
signal and performs no work; a missing writer or a failed finish still
installs a fresh writer set and posts the signal; a successful finish
saves the chunk and then installs a fresh writer set. -/
def handleFinalizeChunk (now : ℚ) (fenv : FinishEnv) (senv : SaveEnv)
    (createOk : Bool) (s : HandlerState) : HandlerState × List HandlerEvent :=
  if now - s.lastFinalizeChunkTime < 1/10 then (s, [.chunkSaved])
  else
    let s1 :=
      { s with lastFinalizeChunkTime := now, isCapturing := false, chunkStartedAt := 0 }
    match s1.writer with
    | none => (createNewWriter createOk s1, [.chunkSaved])
    | some w =>
      match (finishWithAudio fenv w).1 with
      | Except.error _ => (createNewWriter createOk { s1 with writer := none }, [.chunkSaved])
      | Except.ok r =>
        let s2 := { s1 with writer := none }
        let p := saveChunkToContainer senv now r s2
        (createNewWriter createOk p.1, p.2)

/-- SampleHandler.processSampleBuffer (part_004 lines 804 to 831): mic
frames flag sawMicBuffers, every fifteenth video frame refreshes the
status snapshot, and the buffer is routed to the current writer. -/
def handlerProcessFrame (env : FrameEnv) (hasGroup : Bool) (b : Frame)
    (s : HandlerState) : HandlerState :=
  match s.writer with
  | none => s
  | some w =>
    let s1 := if b.kind = .audioMic then { s with sawMicBuffers := true } else s
    let s2 :=
      if b.kind = .video then
        let fc := s1.frameCount + 1
        if 15 ≤ fc then updateExtensionStatus hasGroup { s1 with frameCount := 0 }
        else { s1 with frameCount := fc }
      else s1
    { s2 with writer := some (processSampleBuffer env w b).2 }

/-! ### Consumer-side status (src/ios/NitroScreenRecorder.swift lines 916
to 946) -/

structure ExtensionStatus where
  isAlive : Bool
  isMicActive : Bool
  isCapturing : Bool
  lastHeartbeat : ℚ
  chunkStartedAt : ℚ
deriving DecidableEq

/-- NitroScreenRecorder.getExtensionStatus: reads the ExtensionHeartbeat
key (0 when absent) and reports alive exactly when the heartbeat is
positive and within 5 seconds of the current wall-clock time. -/
def getExtensionStatus (hasGroup : Bool) (d : SharedDefaults) (now : ℚ) :
    ExtensionStatus :=
  if hasGroup = false then
    { isAlive := false, isMicActive := false, isCapturing := false
      lastHeartbeat := 0, chunkStartedAt := 0 }
  else
    let hb := d.extensionHeartbeat.getD 0
    { isAlive := decide (0 < hb) && decide (now - hb < 5)
      isMicActive := d.extensionMicActive.getD false
      isCapturing := d.extensionCapturing.getD false
      lastHeartbeat := hb
      chunkStartedAt := d.extensionChunkStartedAt.getD 0 }

/-! ### Derived notions used by the claims -/

/-- The per-track timestamp state of a writer (the five running
timestamps of BroadcastWriter.swift lines 54 to 58). -/
def tsState (w : WriterState) : ℚ × Option ℚ × ℚ × ℚ × ℚ :=
  (w.lastVideoEndTime, w.lastVideoPTS, w.lastVideoFrameDuration,
    w.lastMicEndTime, w.lastAppAudioEndTime)

/-- The queue invariant: at most one record per chunk id. -/
def atMostOnePerId (chunks : List ChunkEntry) : Prop :=
  ∀ id : String, (chunks.countP fun c => decide (c.chunkId = some id)) ≤ 1

/-! ### Helper lemmas -/

theorem rhaz_nonneg {q : ℚ} (h : 0 ≤ q) : 0 ≤ rhaz q := by
  unfold rhaz
  rw [if_pos h]
  exact Int.floor_nonneg.mpr (by linarith)

theorem abs_sub_rhaz_le (q : ℚ) : |q - (rhaz q : ℚ)| ≤ 1/2 := by
  unfold rhaz
  rcases le_or_lt 0 q with h | h
  · rw [if_pos h, abs_le]
    have h1 : ((⌊q + 1/2⌋ : ℤ) : ℚ) ≤ q + 1/2 := Int.floor_le _
    have h2 : q + 1/2 - 1 < ((⌊q + 1/2⌋ : ℤ) : ℚ) := Int.sub_one_lt_floor _
    constructor <;> linarith
  · rw [if_neg (not_le.mpr h), abs_le]
    have h1 : ((⌊-q + 1/2⌋ : ℤ) : ℚ) ≤ -q + 1/2 := Int.floor_le _
    have h2 : -q + 1/2 - 1 < ((⌊-q + 1/2⌋ : ℤ) : ℚ) := Int.sub_one_lt_floor _
    push_cast
    constructor <;> linarith

theorem silenceLoop_all_ready (ready : ℕ → Bool) (hr : ∀ i, ready i = true) :
    ∀ rem idx, silenceLoop ready idx rem = rem := by
  intro rem
  induction rem using Nat.strong_induction_on with
  | _ rem ih =>
    intro idx
    unfold silenceLoop
    split
    · omega
    · case isFalse h =>
      rw [hr idx]
      simp only [if_true]
      have hw1 : 1 ≤ min rem 1024 := le_min (Nat.one_le_iff_ne_zero.mpr h) (by norm_num)
      have hwle : min rem 1024 ≤ rem := min_le_left _ _
      rw [ih (rem - min rem 1024) (by omega)]
      omega

theorem startAudioSessionIfNeeded_cases (w : WriterState) :
    startAudioSessionIfNeeded w = w
      ∨ startAudioSessionIfNeeded w = { w with audioSessionStarted := true } := by
  unfold startAudioSessionIfNeeded
  split
  · right; rfl
  · left; rfl

theorem startAppAudioSessionIfNeeded_cases (w : WriterState) :
    startAppAudioSessionIfNeeded w = w
      ∨ startAppAudioSessionIfNeeded w = { w with appAudioSessionStarted := true } := by
  unfold startAppAudioSessionIfNeeded
  split
  · right; rfl
  · left; rfl

theorem captureSeparateAudioOutput_dropped_early (env : FrameEnv) (w : WriterState)
    (b : Frame) (st : ℚ) (hst : w.sessionStartTime = some st) (hlt : b.pts < st) :
    (captureSeparateAudioOutput env w b).1 = false
      ∧ (captureSeparateAudioOutput env w b).2.sepMicTrack = w.sepMicTrack
      ∧ (captureSeparateAudioOutput env w b).2.mainMicTrack = w.mainMicTrack
      ∧ (captureSeparateAudioOutput env w b).2.appTrack = w.appTrack
      ∧ (captureSeparateAudioOutput env w b).2.sessionStartTime = w.sessionStartTime
      ∧ tsState ((captureSeparateAudioOutput env w b).2) = tsState w := by
  unfold captureSeparateAudioOutput
  split
  · simp [tsState]
  · split
    · simp [tsState]
    · rcases startAudioSessionIfNeeded_cases w with he | he <;>
        simp [hst, hlt, he, tsState]

theorem captureAppAudioOutput_dropped_early (env : FrameEnv) (w : WriterState)
    (b : Frame) (st : ℚ) (hst : w.sessionStartTime = some st) (hlt : b.pts < st) :
    (captureAppAudioOutput env w b).1 = false
      ∧ (captureAppAudioOutput env w b).2.sepMicTrack = w.sepMicTrack
      ∧ (captureAppAudioOutput env w b).2.mainMicTrack = w.mainMicTrack
      ∧ (captureAppAudioOutput env w b).2.appTrack = w.appTrack
      ∧ (captureAppAudioOutput env w b).2.sessionStartTime = w.sessionStartTime
      ∧ tsState ((captureAppAudioOutput env w b).2) = tsState w := by
  unfold captureAppAudioOutput
  split
  · simp [tsState]
  · split
    · simp [tsState]
    · rcases startAppAudioSessionIfNeeded_cases w with he | he <;>
        simp [hst, hlt, he, tsState]

theorem captureMicrophoneOutput_dropped_early (env : FrameEnv) (w : WriterState)
    (b : Frame) (st : ℚ) (hst : w.sessionStartTime = some st) (hlt : b.pts < st) :
    captureMicrophoneOutput env w b = (false, w) := by
  unfold captureMicrophoneOutput
  simp [hst, hlt]

/-- Claim C3: every microphone or app audio frame whose presentation time
is earlier than the session start time, or which arrives before any video
frame has been seen, is dropped without being buffered: it is never
appended to the microphone track of the main container nor to any
separate audio track. -/
theorem c3_early_audio_dropped (env : FrameEnv) (w : WriterState) (b : Frame)
    (hk : b.kind = .audioMic ∨ b.kind = .audioApp)
    (hearly : w.sessionStartTime = none
      ∨ ∃ st, w.sessionStartTime = some st ∧ b.pts < st) :
    (processSampleBuffer env w b).2.mainMicTrack = w.mainMicTrack
      ∧ (processSampleBuffer env w b).2.sepMicTrack = w.sepMicTrack
      ∧ (processSampleBuffer env w b).2.appTrack = w.appTrack := by
  unfold processSampleBuffer
  split
  · simp
  · split
    · simp
    · rcases hk with hk | hk <;> rw [hk]
      · rcases hearly with hn | ⟨st, hst, hlt⟩
        · simp [hn]
        · simp only [hst, Option.isNone_some, Bool.false_eq_true, if_false]
          by_cases hsep : w.separateAudioFile = true
          · obtain ⟨-, hsep1, hmain1, happ1, hsess1, -⟩ :=
              captureSeparateAudioOutput_dropped_early env w b st hst hlt
            rw [show w.separateAudioFile = true from hsep]
            simp only [if_true]
            rw [captureMicrophoneOutput_dropped_early env _ b st
              (by rw [hsess1, hst]) hlt]
            exact ⟨hmain1, hsep1, happ1⟩
          · simp only [hsep, Bool.false_eq_true, if_false]
            rw [captureMicrophoneOutput_dropped_early env w b st hst hlt]
            exact ⟨rfl, rfl, rfl⟩
      · rcases hearly with hn | ⟨st, hst, hlt⟩
        · simp [hn]
        · simp only [hst, Option.isNone_some, Bool.false_eq_true, if_false]
          by_cases hsep : w.separateAudioFile = true
          · obtain ⟨-, hsep1, hmain1, happ1, hsess1, -⟩ :=
              captureAppAudioOutput_dropped_early env w b st hst hlt
            rw [show w.separateAudioFile = true from hsep]
            simp only [if_true]
            exact ⟨hmain1, hsep1, happ1⟩
          · simp only [hsep, Bool.false_eq_true, if_false]
            simp

/-! ### Concrete fixtures used by witnesses and counterexamples -/

/-- An encoder environment where every input is ready and every append
succeeds. -/
def allOk : FrameEnv :=
  { videoInputReady := true, micInputReady := true, sepInputReady := true
    appInputReady := true, videoAppendOk := true, micAppendOk := true
    sepAppendOk := true, appAppendOk := true, deviceSampleRate := 48000 }

/-- A finish environment where padding inputs stay ready and every
finishWriting call succeeds. -/
def allFin : FinishEnv :=
  { micReady := fun _ => true, appReady := fun _ => true, mainFinishOk := true
    micFinishOk := true, appFinishOk := true, deviceSampleRate := 48000 }

/-- A save environment where the app group, container, and every file move
succeed. -/
def allSave : SaveEnv :=
  { hasGroup := true, containerOk := true, createDirOk := true
    moveVideoOk := true, moveMicOk := true, moveAppOk := true }

/-- Shared storage right after broadcast start, with the consumer having
published chunk id x. -/
def initialDefaults : SharedDefaults :=
  { pendingChunks := [], currentChunkId := some "x", extensionMicActive := none
    extensionCapturing := none, extensionChunkStartedAt := none
    extensionHeartbeat := none }

/-- Handler state right after broadcastStarted with separate audio
enabled. -/
def initialHandler : HandlerState :=
  { writer := some (freshWriter true 0), writerId := 0, nextWriterId := 1
    sawMicBuffers := false, separateAudioFile := true, isCapturing := false
    chunkStartedAt := 0, frameCount := 0, lastMarkChunkTime := 0
    lastFinalizeChunkTime := 0, pendingChunkId := none
    defaults := initialDefaults }

/-- A valid video frame. -/
def vFrame (t d : ℚ) : Frame :=
  { kind := .video, pts := t, duration := d, numSamples := 0
    format := { sampleRate := 48000 }, valid := true, dataReady := true }

/-- A valid microphone audio frame. -/
def micFrame (t d : ℚ) : Frame :=
  { kind := .audioMic, pts := t, duration := d, numSamples := 1024
    format := { sampleRate := 48000 }, valid := true, dataReady := true }

/-- A writer that has seen its first video frame at time 5. -/
def startedWriter : WriterState :=
  (processSampleBuffer allOk (freshWriter true 0) (vFrame 5 1)).2

theorem c3_witness :
    (processSampleBuffer allOk startedWriter (micFrame 0 (1/10))).2.mainMicTrack
        = startedWriter.mainMicTrack
      ∧ (processSampleBuffer allOk startedWriter (micFrame 0 (1/10))).2.sepMicTrack
        = startedWriter.sepMicTrack
      ∧ (processSampleBuffer allOk startedWriter (micFrame 0 (1/10))).2.appTrack
        = startedWriter.appTrack :=
  c3_early_audio_dropped allOk startedWriter (micFrame 0 (1/10)) (Or.inl rfl)
    (Or.inr ⟨5, by decide, by decide⟩)

theorem createNewWriter_defaults (ok : Bool) (s : HandlerState) :
    (createNewWriter ok s).defaults = s.defaults := by
  unfold createNewWriter
  split <;> rfl

theorem createNewWriter_writer_of_ok (s : HandlerState) :
    (createNewWriter true s).writer
      = some (freshWriter s.separateAudioFile s.nextWriterId) := by
  unfold createNewWriter
  rfl

/-- Claim C2 (amended): finishing a writer set that never received a
video frame, so that its session was never started, cancels the main
writer and the separate audio writers, reports the distinct
cancelled-status error, and on the finalize path publishes no record into
the chunk handoff queue while still signaling the consumer.  (A writer
set whose first received video frame failed to append has its session
started and is finished normally despite zero accepted frames; see the
counterexample.) -/
theorem c2_never_started_cancel (fenv : FinishEnv) (w : WriterState)
    (hns : w.assetWriterSessionStarted = false) :
    (finishWithAudio fenv w).1
        = Except.error (FinishError.wrongAssetWriterStatus WriterStatus.cancelled)
      ∧ (finishWithAudio fenv w).2.mainStatus = WriterStatus.cancelled
      ∧ (w.hasSepWriter = true →
          (finishWithAudio fenv w).2.micWriterStatus = WriterStatus.cancelled)
      ∧ (w.hasAppWriter = true →
          (finishWithAudio fenv w).2.appWriterStatus = WriterStatus.cancelled)
      ∧ (∀ now senv createOk s, s.writer = some w →
          1/10 ≤ now - s.lastFinalizeChunkTime →
          (handleFinalizeChunk now fenv senv createOk s).1.defaults.pendingChunks
              = s.defaults.pendingChunks
            ∧ HandlerEvent.chunkSaved ∈ (handleFinalizeChunk now fenv senv createOk s).2) := by
  have hfin : (finishWithAudio fenv w).1
      = Except.error (FinishError.wrongAssetWriterStatus WriterStatus.cancelled) := by
    unfold finishWithAudio
    rw [if_pos hns]
  refine ⟨hfin, ?_, ?_, ?_, ?_⟩
  · unfold finishWithAudio
    rw [if_pos hns]
  · intro hsep
    unfold finishWithAudio
    rw [if_pos hns]
    simp [hsep]
  · intro happ
    unfold finishWithAudio
    rw [if_pos hns]
    simp [happ]
  · intro now senv createOk s hw hdeb
    unfold handleFinalizeChunk
    rw [if_neg (not_lt.mpr hdeb)]
    simp only [hw, hfin]
    rw [createNewWriter_defaults]
    exact ⟨rfl, by simp⟩

theorem c2_witness :
    (finishWithAudio allFin (freshWriter true 0)).1
        = Except.error (FinishError.wrongAssetWriterStatus WriterStatus.cancelled)
      ∧ (finishWithAudio allFin (freshWriter true 0)).2.micWriterStatus
        = WriterStatus.cancelled
      ∧ (handleFinalizeChunk 100 allFin allSave true initialHandler).1.defaults.pendingChunks
        = initialHandler.defaults.pendingChunks := by
  have h := c2_never_started_cancel allFin (freshWriter true 0) rfl
  refine ⟨h.1, h.2.2.1 rfl, ?_⟩
  exact (h.2.2.2.2 100 allSave true initialHandler rfl (by norm_num [initialHandler])).1

/-- A writer whose first video frame was received (so startSessionIfNeeded
ran and the session was opened at time 5) but whose append was rejected by
the encoder, leaving zero accepted video frames. -/
def rejectedAppendWriter : WriterState :=
  (processSampleBuffer { allOk with videoAppendOk := false }
    (freshWriter true 0) (vFrame 5 1)).2

/-- The finish result rejectedAppendWriter produces. -/
def c2FinishResult : FinishResult :=
  { videoURL := "video-" ++ toString 0
    audioURL := some ("mic-" ++ toString 0)
    appAudioURL := some ("app-" ++ toString 0) }

/-- The record that finalizing rejectedAppendWriter publishes. -/
def c2Entry : ChunkEntry :=
  { video := "video-" ++ toString 0, chunkId := none
    micAudio := some ("mic-" ++ toString 0), appAudio := some ("app-" ++ toString 0)
    micEnabled := false, hadSeparateAudio := true, timestamp := 100 }

/-- Claim C2 counterexample: a writer set that accepted zero video frames
(its video track is empty) because the first received frame's append was
rejected still has a started session, so finish completes normally with an
ok result instead of cancelling, and finalizing it adds a chunk record to
the handoff queue. -/
theorem c2_counterexample :
    rejectedAppendWriter.videoTrack = []
      ∧ rejectedAppendWriter.assetWriterSessionStarted = true
      ∧ (finishWithAudio allFin rejectedAppendWriter).1 = Except.ok c2FinishResult
      ∧ (handleFinalizeChunk 100 allFin allSave true
          { initialHandler with
            writer := some rejectedAppendWriter }).1.defaults.pendingChunks
        = [c2Entry] := by
  have hwr : rejectedAppendWriter
      = { freshWriter true 0 with
          assetWriterSessionStarted := true, sessionStartTime := some 5 } := by
    simp [rejectedAppendWriter, processSampleBuffer, startSessionIfNeeded,
      captureVideoOutput, videoDurationUsed, vFrame, allOk, freshWriter]
  rw [hwr]
  refine ⟨rfl, rfl, ?_, ?_⟩
  · simp [finishWithAudio, padAudioToVideoLength, freshWriter, allFin, c2FinishResult]
  · simp [handleFinalizeChunk, finishWithAudio, padAudioToVideoLength,
      saveChunkToContainer, upsertChunk, createNewWriter, freshWriter,
      initialHandler, initialDefaults, allFin, allSave, c2Entry]
    norm_num

theorem tsState_startAudioSessionIfNeeded (w : WriterState) :
    tsState (startAudioSessionIfNeeded w) = tsState w := by
  unfold startAudioSessionIfNeeded
  split <;> rfl

theorem tsState_startAppAudioSessionIfNeeded (w : WriterState) :
    tsState (startAppAudioSessionIfNeeded w) = tsState w := by
  unfold startAppAudioSessionIfNeeded
  split <;> rfl

theorem captureVideoOutput_of_false (env : FrameEnv) (w : WriterState) (b : Frame) :
    (captureVideoOutput env w b).1 = true ∨ (captureVideoOutput env w b).2 = w := by
  unfold captureVideoOutput
  split
  · right; rfl
  · split
    · left; rfl
    · right; rfl

theorem captureSeparateAudioOutput_tsState (env : FrameEnv) (w : WriterState) (b : Frame) :
    (captureSeparateAudioOutput env w b).1 = true
      ∨ tsState (captureSeparateAudioOutput env w b).2 = tsState w := by
  have h1 := tsState_startAudioSessionIfNeeded w
  unfold captureSeparateAudioOutput
  split
  · right; rfl
  · split
    · right; rfl
    · split
      · right; rfl
      · split
        · right; exact h1
        · split
          · right
            simp only []
            split <;> exact h1
          · split
            · left; rfl
            · right
              simp only []
              split <;> exact h1

theorem captureAppAudioOutput_tsState (env : FrameEnv) (w : WriterState) (b : Frame) :
    (captureAppAudioOutput env w b).1 = true
      ∨ tsState (captureAppAudioOutput env w b).2 = tsState w := by
  have h1 := tsState_startAppAudioSessionIfNeeded w
  unfold captureAppAudioOutput
  split
  · right; rfl
  · split
    · right; rfl
    · split
      · right; rfl
      · split
        · right; exact h1
        · split
          · right
            simp only []
            split <;> exact h1
          · split
            · left; rfl
            · right
              simp only []
              split <;> exact h1

theorem captureMicrophoneOutput_tsState (env : FrameEnv) (w : WriterState) (b : Frame) :
    tsState (captureMicrophoneOutput env w b).2 = tsState w := by
  unfold captureMicrophoneOutput
  split
  · rfl
  · split
    · rfl
    · split
      · rfl
      · split <;> rfl

theorem captureVideoOutput_preserves_session (env : FrameEnv) (w : WriterState) (b : Frame) :
    (captureVideoOutput env w b).2.sessionStartTime = w.sessionStartTime
      ∧ (captureVideoOutput env w b).2.assetWriterSessionStarted
        = w.assetWriterSessionStarted := by
  unfold captureVideoOutput
  split
  · exact ⟨rfl, rfl⟩
  · simp only []
    split
    · exact ⟨rfl, rfl⟩
    · exact ⟨rfl, rfl⟩

/-- Claim C10: the five per-track running timestamps are mutated only by a
successful append of the corresponding track; a dropped or rejected frame
leaves all of them unchanged, with the single exception that the first
video frame of a writer set records the session start time and opens the
session even when its own append then fails. -/
theorem c10_append_gated_state (env : FrameEnv) (w : WriterState) (b : Frame) :
    ((captureVideoOutput env w b).1 = false → tsState (captureVideoOutput env w b).2 = tsState w)
      ∧ ((captureSeparateAudioOutput env w b).1 = false →
          tsState (captureSeparateAudioOutput env w b).2 = tsState w)
      ∧ ((captureAppAudioOutput env w b).1 = false →
          tsState (captureAppAudioOutput env w b).2 = tsState w)
      ∧ tsState (captureMicrophoneOutput env w b).2 = tsState w
      ∧ (b.kind = .video → b.valid = true → b.dataReady = true →
          w.mainStatus = .writing → w.assetWriterSessionStarted = false →
          (processSampleBuffer env w b).2.sessionStartTime = some b.pts
            ∧ (processSampleBuffer env w b).2.assetWriterSessionStarted = true) := by
  refine ⟨?_, ?_, ?_, captureMicrophoneOutput_tsState env w b, ?_⟩
  · intro hf
    rcases captureVideoOutput_of_false env w b with h | h
    · rw [hf] at h; exact absurd h (by simp)
    · rw [h]
  · intro hf
    rcases captureSeparateAudioOutput_tsState env w b with h | h
    · rw [hf] at h; exact absurd h (by simp)
    · exact h
  · intro hf
    rcases captureAppAudioOutput_tsState env w b with h | h
    · rw [hf] at h; exact absurd h (by simp)
    · exact h
  · intro hk hv hd hm hns
    have hsession : startSessionIfNeeded w b
        = { w with sessionStartTime := some b.pts, assetWriterSessionStarted := true } := by
      unfold startSessionIfNeeded
      rw [if_neg (by simp [hns])]
    have hp := captureVideoOutput_preserves_session env (startSessionIfNeeded w b) b
    unfold processSampleBuffer
    rw [if_neg (by simp [hv, hd]), if_neg (by simp [hm]), hk]
    show (captureVideoOutput env (startSessionIfNeeded w b) b).2.sessionStartTime = some b.pts
      ∧ (captureVideoOutput env (startSessionIfNeeded w b) b).2.assetWriterSessionStarted = true
    constructor
    · rw [hp.1, hsession]
    · rw [hp.2, hsession]

theorem ite_lt_eq_max (a b : ℚ) : (if a < b then b else a) = max a b := by
  rcases le_or_lt b a with h | h
  · rw [if_neg (not_lt.mpr h), max_eq_left h]
  · rw [if_pos h, max_eq_right (le_of_lt h)]

theorem videoDurationUsed_pos (w : WriterState) (b : Frame) :
    0 < videoDurationUsed w b := by
  unfold videoDurationUsed
  simp only []
  by_cases hd0 : 0 < b.duration
  · rw [if_neg (not_not_intro hd0), if_neg (not_not_intro hd0)]
    exact hd0
  · rw [if_pos hd0]
    cases hp : w.lastVideoPTS with
    | none =>
      simp only [hp]
      rw [if_pos hd0]
      split
      · assumption
      · norm_num
    | some p =>
      simp only [hp]
      by_cases hdel : 0 < b.pts - p
      · rw [if_pos hdel, if_neg (not_not_intro hdel)]
        exact hdel
      · rw [if_neg hdel, if_pos hd0]
        split
        · assumption
        · norm_num

theorem captureVideoOutput_success_end (env : FrameEnv) (w : WriterState) (b : Frame) :
    (captureVideoOutput env w b).1 = true →
    (captureVideoOutput env w b).2.lastVideoEndTime
      = max w.lastVideoEndTime (b.pts + videoDurationUsed w b) := by
  unfold captureVideoOutput
  split
  · intro h; exact absurd h (by simp)
  · simp only []
    split
    · intro _
      simp only []
      rw [if_pos (videoDurationUsed_pos w b)]
      exact ite_lt_eq_max _ _
    · intro h; exact absurd h (by simp)

/-- The video duration rule exactly as the claim words it, for the
refinement comparison: the source duration when positive; otherwise the
delta to the previous video frame timestamp; otherwise, when no prior
frame exists, the nominal 1/60 second. -/
def videoDurationSpecClaim (w : WriterState) (b : Frame) : ℚ :=
  if 0 < b.duration then b.duration
  else
    match w.lastVideoPTS with
    | some p => b.pts - p
    | none => (1 : ℚ) / 60

/-- A writer that accepted one video frame at time 5 with duration 1/30,
so its last video presentation time is 5 and its last used frame duration
is 1/30. -/
def dupPtsWriter : WriterState :=
  (processSampleBuffer allOk (freshWriter true 0) (vFrame 5 (1/30))).2

/-- Claim C7 counterexample: on a video frame with a missing duration
whose timestamp equals the previous frame timestamp (delta zero), the code
reuses the last frame duration 1/30 instead of the delta the claim
prescribes, so the duration rule of the claim disagrees with the code. -/
theorem c7_counterexample :
    videoDurationSpecClaim dupPtsWriter (vFrame 5 0) = 0
      ∧ videoDurationUsed dupPtsWriter (vFrame 5 0) = 1/30
      ∧ videoDurationSpecClaim dupPtsWriter (vFrame 5 0)
        ≠ videoDurationUsed dupPtsWriter (vFrame 5 0) := by
  norm_num [videoDurationSpecClaim, videoDurationUsed, dupPtsWriter, processSampleBuffer,
    allOk, freshWriter, vFrame, startSessionIfNeeded, captureVideoOutput]

/-- Claim C7 (amended): for a video frame with a missing or nonpositive
source duration the code uses the positive delta to the previous frame
timestamp; when the delta is not positive it reuses the last used frame
duration when positive; the nominal 1/60 second is used when no prior
frame exists (the last used duration is then still zero); the duration
used is always positive, and after every successful append the running
last video end time is max(previous, timestamp + duration). -/
theorem c7_duration_rule (env : FrameEnv) (w : WriterState) (b : Frame) :
    (0 < b.duration → videoDurationUsed w b = b.duration)
      ∧ (∀ p, ¬ 0 < b.duration → w.lastVideoPTS = some p → 0 < b.pts - p →
          videoDurationUsed w b = b.pts - p)
      ∧ (¬ 0 < b.duration → w.lastVideoPTS = none → w.lastVideoFrameDuration = 0 →
          videoDurationUsed w b = 1/60)
      ∧ (∀ p, ¬ 0 < b.duration → w.lastVideoPTS = some p → ¬ 0 < b.pts - p →
          0 < w.lastVideoFrameDuration →
          videoDurationUsed w b = w.lastVideoFrameDuration)
      ∧ 0 < videoDurationUsed w b
      ∧ ((captureVideoOutput env w b).1 = true →
          (captureVideoOutput env w b).2.lastVideoEndTime
            = max w.lastVideoEndTime (b.pts + videoDurationUsed w b)) := by
  refine ⟨?_, ?_, ?_, ?_, videoDurationUsed_pos w b,
    captureVideoOutput_success_end env w b⟩
  · intro hd
    unfold videoDurationUsed
    simp [hd]
  · intro p hd hp hdelta
    unfold videoDurationUsed
    simp [hd, hp, hdelta]
  · intro hd hp hld
    unfold videoDurationUsed
    simp [hd, hp, hld]
  · intro p hd hp hdelta hld
    unfold videoDurationUsed
    simp [hd, hp, hdelta, hld]

theorem c7_witness :
    videoDurationUsed dupPtsWriter (vFrame 6 0) = 1
      ∧ 0 < videoDurationUsed dupPtsWriter (vFrame 6 0) := by
  have h := c7_duration_rule allOk dupPtsWriter (vFrame 6 0)
  refine ⟨?_, h.2.2.2.2.1⟩
  have h2 := h.2.1 5 (by norm_num [vFrame]) ?_ (by norm_num [vFrame])
  · rw [h2]
    norm_num [vFrame]
  · norm_num [dupPtsWriter, processSampleBuffer, allOk, freshWriter, vFrame,
      startSessionIfNeeded, captureVideoOutput]

theorem handleMarkChunk_debounced (t : ℚ) (env : FinishEnv) (g c : Bool)
    (s : HandlerState) (h : t - s.lastMarkChunkTime < 1/10) :
    handleMarkChunk t env g c s = s := by
  unfold handleMarkChunk
  rw [if_pos h]

theorem handleMarkChunk_run (t : ℚ) (env : FinishEnv) (g : Bool) (s : HandlerState)
    (h : ¬ t - s.lastMarkChunkTime < 1/10) :
    handleMarkChunk t env g true s
      = { s with
          lastMarkChunkTime := t, isCapturing := true, chunkStartedAt := t
          pendingChunkId := if g then s.defaults.currentChunkId else s.pendingChunkId
          writer := some (freshWriter s.separateAudioFile s.nextWriterId)
          writerId := s.nextWriterId
          nextWriterId := s.nextWriterId + 1 } := by
  unfold handleMarkChunk createNewWriter
  rw [if_neg h]
  cases g <;>
    simp only [Bool.false_eq_true, if_false, if_true] <;>
    cases hw : s.writer <;>
    simp [hw]

/-- Claim C6: of two mark-chunk-start requests within 100 ms of each
other, the second is ignored: the first performs the discard and installs
a fresh writer set under a new identity, and the second call leaves the
state completely unchanged, so the writer-set identity changes exactly
once. -/
theorem c6_mark_debounce (s : HandlerState) (fenv fenv2 : FinishEnv)
    (g g2 c2 : Bool) (t1 t2 : ℚ)
    (h1 : 1/10 ≤ t1 - s.lastMarkChunkTime) (h2 : t2 - t1 < 1/10)
    (hid : s.writerId < s.nextWriterId) :
    handleMarkChunk t2 fenv2 g2 c2 (handleMarkChunk t1 fenv g true s)
        = handleMarkChunk t1 fenv g true s
      ∧ (handleMarkChunk t1 fenv g true s).writerId = s.nextWriterId
      ∧ (handleMarkChunk t1 fenv g true s).writerId ≠ s.writerId
      ∧ (handleMarkChunk t1 fenv g true s).writer
        = some (freshWriter s.separateAudioFile s.nextWriterId) := by
  have hr := handleMarkChunk_run t1 fenv g s (not_lt.mpr h1)
  have hlast : (handleMarkChunk t1 fenv g true s).lastMarkChunkTime = t1 := by
    rw [hr]
  refine ⟨?_, by rw [hr], ?_, by rw [hr]⟩
  · exact handleMarkChunk_debounced t2 fenv2 g2 c2 _ (by rw [hlast]; exact h2)
  · rw [hr]
    simp only []
    omega

theorem c6_witness :
    handleMarkChunk (100 + 1/20) allFin true true
          (handleMarkChunk 100 allFin true true initialHandler)
        = handleMarkChunk 100 allFin true true initialHandler
      ∧ (handleMarkChunk 100 allFin true true initialHandler).writerId
        = initialHandler.nextWriterId := by
  have h := c6_mark_debounce initialHandler allFin allFin true true true 100 (100 + 1/20)
    (by norm_num [initialHandler]) (by norm_num) (by norm_num [initialHandler])
  exact ⟨h.1, h.2.1⟩

theorem saveChunkToContainer_signal (env : SaveEnv) (now : ℚ) (r : FinishResult)
    (s : HandlerState) :
    HandlerEvent.chunkSaved ∈ (saveChunkToContainer env now r s).2 := by
  unfold saveChunkToContainer
  split
  · simp
  · split
    · simp
    · split
      · simp
      · split
        · simp
        · simp

theorem handleFinalizeChunk_debounced (now : ℚ) (fenv : FinishEnv) (senv : SaveEnv)
    (c : Bool) (s : HandlerState) (h : now - s.lastFinalizeChunkTime < 1/10) :
    handleFinalizeChunk now fenv senv c s = (s, [HandlerEvent.chunkSaved]) := by
  unfold handleFinalizeChunk
  rw [if_pos h]

/-- Claim C5: every finalize-chunk request posts the chunkSaved signal on
every execution path: a debounced duplicate re-signals while changing
nothing; a failed finish still installs a fresh writer set, still signals,
and publishes no record; and on a successful save the record is published
and then the signal is posted. -/
theorem c5_finalize_always_signals (now : ℚ) (fenv : FinishEnv) (senv : SaveEnv)
    (createOk : Bool) (s : HandlerState) :
    HandlerEvent.chunkSaved ∈ (handleFinalizeChunk now fenv senv createOk s).2
      ∧ (now - s.lastFinalizeChunkTime < 1/10 →
          handleFinalizeChunk now fenv senv createOk s = (s, [HandlerEvent.chunkSaved]))
      ∧ (∀ w, 1/10 ≤ now - s.lastFinalizeChunkTime → s.writer = some w →
          (∃ e, (finishWithAudio fenv w).1 = Except.error e) →
          (handleFinalizeChunk now fenv senv createOk s).1.defaults.pendingChunks
              = s.defaults.pendingChunks
            ∧ (handleFinalizeChunk now fenv senv createOk s).2 = [HandlerEvent.chunkSaved]
            ∧ (createOk = true →
                (handleFinalizeChunk now fenv senv createOk s).1.writer
                  = some (freshWriter s.separateAudioFile s.nextWriterId)))
      ∧ (∀ w r, 1/10 ≤ now - s.lastFinalizeChunkTime → s.writer = some w →
          (finishWithAudio fenv w).1 = Except.ok r →
          senv.hasGroup = true → senv.containerOk = true → senv.createDirOk = true →
          senv.moveVideoOk = true →
          ∃ entry, (handleFinalizeChunk now fenv senv createOk s).2
            = [HandlerEvent.publishRecord entry, HandlerEvent.chunkSaved]) := by
  refine ⟨?_, ?_, ?_, ?_⟩
  · unfold handleFinalizeChunk
    split
    · simp
    · cases hw : s.writer with
      | none => simp [hw]
      | some w =>
        simp only [hw]
        cases hf : (finishWithAudio fenv w).1 with
        | error e => simp [hf]
        | ok r =>
          simp only [hf]
          exact saveChunkToContainer_signal senv now r _
  · intro h
    exact handleFinalizeChunk_debounced now fenv senv createOk s h
  · rintro w hdeb hw ⟨e, hf⟩
    unfold handleFinalizeChunk
    rw [if_neg (not_lt.mpr hdeb)]
    simp only [hw, hf]
    refine ⟨by rw [createNewWriter_defaults], by simp, ?_⟩
    intro hok
    rw [hok, createNewWriter_writer_of_ok]
  · intro w r hdeb hw hf hg hc hd hm
    unfold handleFinalizeChunk
    rw [if_neg (not_lt.mpr hdeb)]
    simp only [hw, hf]
    unfold saveChunkToContainer
    rw [if_neg (by simp [hg]), if_neg (by simp [hc]), if_neg (by simp [hd]),
      if_neg (by simp [hm])]
    exact ⟨_, rfl⟩

theorem c5_witness :
    handleFinalizeChunk 100 allFin allSave true
        { initialHandler with lastFinalizeChunkTime := (1999 : ℚ)/20 }
      = ({ initialHandler with lastFinalizeChunkTime := (1999 : ℚ)/20 },
          [HandlerEvent.chunkSaved]) := by
  have h := c5_finalize_always_signals 100 allFin allSave true
    { initialHandler with lastFinalizeChunkTime := (1999 : ℚ)/20 }
  exact h.2.1 (by norm_num [initialHandler])

theorem upsertChunk_atMostOne (pid : Option String) (entry : ChunkEntry)
    (chunks : List ChunkEntry) (he : entry.chunkId = pid)
    (h : atMostOnePerId chunks) : atMostOnePerId (upsertChunk pid entry chunks) := by
  intro id
  unfold upsertChunk
  cases pid with
  | none =>
    rw [List.countP_append]
    have h1 := h id
    have h2 : (List.countP (fun c => decide (c.chunkId = some id)) [entry]) = 0 := by
      simp [List.countP_cons, he]
    omega
  | some x =>
    rw [List.countP_append]
    by_cases hid : id = x
    · subst hid
      have h0 : ((chunks.filter fun c => decide (c.chunkId ≠ some id)).countP
          fun c => decide (c.chunkId = some id)) = 0 := by
        rw [List.countP_filter]
        apply List.countP_eq_zero.mpr
        intro a _
        simp
      have h2 : (List.countP (fun c => decide (c.chunkId = some id)) [entry]) ≤ 1 := by
        simp only [List.countP_cons, List.countP_nil]
        split <;> simp
      omega
    · have hle : ((chunks.filter fun c => decide (c.chunkId ≠ some x)).countP
          fun c => decide (c.chunkId = some id))
          ≤ chunks.countP fun c => decide (c.chunkId = some id) := by
        rw [List.countP_filter]
        apply List.countP_mono_left
        intro a _ hpa
        rw [Bool.and_eq_true] at hpa
        exact hpa.1
      have h1 := h id
      have h2 : (List.countP (fun c => decide (c.chunkId = some id)) [entry]) = 0 := by
        simp [List.countP_cons, he]
        intro hcon
        exact absurd hcon.symm hid
      omega

theorem saveChunkToContainer_queue (env : SaveEnv) (now : ℚ) (r : FinishResult)
    (s : HandlerState) :
    (saveChunkToContainer env now r s).1.defaults.pendingChunks = s.defaults.pendingChunks
      ∨ ∃ entry, entry.chunkId = s.pendingChunkId
        ∧ (saveChunkToContainer env now r s).1.defaults.pendingChunks
          = upsertChunk s.pendingChunkId entry s.defaults.pendingChunks := by
  unfold saveChunkToContainer
  split
  · left; rfl
  · split
    · left; rfl
    · split
      · left; rfl
      · split
        · left; rfl
        · right; exact ⟨_, rfl, rfl⟩

/-- Stage literals of the double-finalize scenario. -/
def scenS1 : HandlerState :=
  { initialHandler with
    lastMarkChunkTime := 100, isCapturing := true
    chunkStartedAt := 100, pendingChunkId := some "x"
    writer := some (freshWriter true 1), writerId := 1, nextWriterId := 2 }

def scenW1 : WriterState :=
  { freshWriter true 1 with
    assetWriterSessionStarted := true
    sessionStartTime := some 5, lastVideoEndTime := 6, lastVideoPTS := some 5
    lastVideoFrameDuration := 1, videoTrack := [5] }

def scenS2 : HandlerState := { scenS1 with frameCount := 1, writer := some scenW1 }

def scenEntry1 : ChunkEntry :=
  { video := "video-" ++ toString 1, chunkId := some "x"
    micAudio := some ("mic-" ++ toString 1), appAudio := some ("app-" ++ toString 1)
    micEnabled := false, hadSeparateAudio := true, timestamp := 101 }

def scenS3 : HandlerState :=
  { scenS2 with
    writer := some (freshWriter true 2), writerId := 2, nextWriterId := 3
    isCapturing := false, chunkStartedAt := 0, lastFinalizeChunkTime := 101
    pendingChunkId := none
    defaults := { initialDefaults with pendingChunks := [scenEntry1] } }

def scenS4 : HandlerState :=
  { scenS3 with
    lastMarkChunkTime := 102, isCapturing := true, chunkStartedAt := 102
    pendingChunkId := some "x"
    writer := some (freshWriter true 3), writerId := 3, nextWriterId := 4 }

def scenW3 : WriterState :=
  { freshWriter true 3 with
    assetWriterSessionStarted := true
    sessionStartTime := some 200, lastVideoEndTime := 201, lastVideoPTS := some 200
    lastVideoFrameDuration := 1, videoTrack := [200] }

def scenS5 : HandlerState := { scenS4 with frameCount := 2, writer := some scenW3 }

def scenEntry2 : ChunkEntry :=
  { video := "video-" ++ toString 3, chunkId := some "x"
    micAudio := some ("mic-" ++ toString 3), appAudio := some ("app-" ++ toString 3)
    micEnabled := false, hadSeparateAudio := true, timestamp := 103 }

/-- The handler state after: markChunkStart at time 100, one video frame,
finalize with id x at 101, markChunkStart at 102 (id x re-captured), one
video frame, finalize at 103. -/
def scenarioFinal : HandlerState :=
  (handleFinalizeChunk 103 allFin allSave true
    (handlerProcessFrame allOk true (vFrame 200 1)
      (handleMarkChunk 102 allFin true true
        ((handleFinalizeChunk 101 allFin allSave true
          (handlerProcessFrame allOk true (vFrame 5 1)
            (handleMarkChunk 100 allFin true true initialHandler))).1)))).1

/-- Claim C4: the chunk handoff queue holds at most one record per chunk
id: the upsert removes any record with the same id before appending, this
invariant is preserved by every save, and finalizing twice with the same
identifier leaves exactly one record for that identifier holding the
second chunk data. -/
theorem c4_upsert_unique :
    (∀ pid entry chunks, entry.chunkId = pid → atMostOnePerId chunks →
        atMostOnePerId (upsertChunk pid entry chunks))
      ∧ (∀ senv now r s, atMostOnePerId s.defaults.pendingChunks →
          atMostOnePerId (saveChunkToContainer senv now r s).1.defaults.pendingChunks)
      ∧ scenarioFinal.defaults.pendingChunks = [scenEntry2]
      ∧ (scenarioFinal.defaults.pendingChunks.countP
          fun c => decide (c.chunkId = some "x")) = 1 := by
  have h1 : handleMarkChunk 100 allFin true true initialHandler = scenS1 := by
    rw [handleMarkChunk_run 100 allFin true initialHandler (by norm_num [initialHandler])]
    norm_num [initialHandler, initialDefaults, scenS1]
  have h2 : handlerProcessFrame allOk true (vFrame 5 1) scenS1 = scenS2 := by
    simp [handlerProcessFrame, scenS1, scenS2, scenW1, initialHandler, initialDefaults,
      processSampleBuffer, startSessionIfNeeded, captureVideoOutput, videoDurationUsed,
      freshWriter, vFrame, allOk, updateExtensionStatus]
    norm_num
  have h3 : (handleFinalizeChunk 101 allFin allSave true scenS2).1 = scenS3 := by
    norm_num [handleFinalizeChunk, scenS2, scenS3, scenS1, scenW1, scenEntry1,
      finishWithAudio, padAudioToVideoLength, saveChunkToContainer, upsertChunk,
      createNewWriter, freshWriter, initialHandler, initialDefaults, allFin, allSave]
  have h4 : handleMarkChunk 102 allFin true true scenS3 = scenS4 := by
    rw [handleMarkChunk_run 102 allFin true scenS3
      (by norm_num [scenS3, scenS2, scenS1, initialHandler])]
    norm_num [scenS3, scenS4, scenS2, scenS1, initialHandler, initialDefaults]
  have h5 : handlerProcessFrame allOk true (vFrame 200 1) scenS4 = scenS5 := by
    simp [handlerProcessFrame, scenS4, scenS5, scenW3, scenS3, scenS2, scenS1,
      initialHandler, initialDefaults, processSampleBuffer, startSessionIfNeeded,
      captureVideoOutput, videoDurationUsed, freshWriter, vFrame, allOk,
      updateExtensionStatus, scenEntry1]
    norm_num
  have h6 : (handleFinalizeChunk 103 allFin allSave true scenS5).1.defaults.pendingChunks
      = [scenEntry2] := by
    norm_num [handleFinalizeChunk, scenS5, scenS4, scenS3, scenS2, scenS1, scenW3,
      scenEntry1, scenEntry2, finishWithAudio, padAudioToVideoLength,
      saveChunkToContainer, upsertChunk, createNewWriter, freshWriter, initialHandler,
      initialDefaults, allFin, allSave]
  have hq : scenarioFinal.defaults.pendingChunks = [scenEntry2] := by
    unfold scenarioFinal
    rw [h1, h2, h3, h4, h5]
    exact h6
  refine ⟨upsertChunk_atMostOne, ?_, hq, ?_⟩
  · intro senv now r s h
    rcases saveChunkToContainer_queue senv now r s with hque | ⟨entry, he, hque⟩
    · rw [hque]; exact h
    · rw [hque]; exact upsertChunk_atMostOne _ entry _ he h
  · rw [hq]
    simp [scenEntry2, List.countP_cons]

theorem c4_witness :
    atMostOnePerId (upsertChunk (some "x") scenEntry2 [scenEntry1])
      ∧ scenarioFinal.defaults.pendingChunks = [scenEntry2] := by
  have h := c4_upsert_unique
  refine ⟨h.1 (some "x") scenEntry2 [scenEntry1] rfl ?_, h.2.2.1⟩
  intro id
  simp only [List.countP_cons, List.countP_nil]
  split <;> simp

theorem handleMarkChunk_defaults (t : ℚ) (fenv : FinishEnv) (g c : Bool)
    (s : HandlerState) :
    (handleMarkChunk t fenv g c s).defaults = s.defaults := by
  unfold handleMarkChunk
  split
  · rfl
  · rw [createNewWriter_defaults]
    simp only []
    split <;> split <;> rfl

theorem updateExtensionStatus_pendingChunks (g : Bool) (s : HandlerState) :
    (updateExtensionStatus g s).defaults.pendingChunks = s.defaults.pendingChunks := by
  unfold updateExtensionStatus
  split <;> rfl

theorem updateExtensionStatus_heartbeat (g : Bool) (s : HandlerState) :
    (updateExtensionStatus g s).defaults.extensionHeartbeat
      = s.defaults.extensionHeartbeat := by
  unfold updateExtensionStatus
  split <;> rfl

theorem handlerProcessFrame_pendingChunks (env : FrameEnv) (g : Bool) (b : Frame)
    (s : HandlerState) :
    (handlerProcessFrame env g b s).defaults.pendingChunks
      = s.defaults.pendingChunks := by
  unfold handlerProcessFrame updateExtensionStatus
  split
  · rfl
  · simp only []
    repeat' split
    all_goals rfl

theorem saveChunkToContainer_heartbeat (env : SaveEnv) (now : ℚ) (r : FinishResult)
    (s : HandlerState) :
    (saveChunkToContainer env now r s).1.defaults.extensionHeartbeat
      = s.defaults.extensionHeartbeat := by
  unfold saveChunkToContainer
  split
  · rfl
  · split
    · rfl
    · split
      · rfl
      · split <;> rfl

theorem handleFinalizeChunk_queue (now : ℚ) (fenv : FinishEnv) (senv : SaveEnv)
    (c : Bool) (s : HandlerState) :
    (handleFinalizeChunk now fenv senv c s).1.defaults.pendingChunks
        = s.defaults.pendingChunks
      ∨ ∃ entry, entry.chunkId = s.pendingChunkId
        ∧ (handleFinalizeChunk now fenv senv c s).1.defaults.pendingChunks
          = upsertChunk s.pendingChunkId entry s.defaults.pendingChunks := by
  unfold handleFinalizeChunk
  split
  · left; rfl
  · cases hw : s.writer with
    | none =>
      left
      simp only [hw]
      rw [createNewWriter_defaults]
    | some w =>
      cases hf : (finishWithAudio fenv w).1 with
      | error e =>
        left
        simp only [hw, hf]
        rw [createNewWriter_defaults]
      | ok r =>
        simp only [hw, hf]
        rcases saveChunkToContainer_queue senv now r
            { s with
              lastFinalizeChunkTime := now, isCapturing := false
              chunkStartedAt := 0, writer := none } with h | ⟨entry, hent, h⟩
        · left
          rw [createNewWriter_defaults]
          exact h
        · right
          exact ⟨entry, hent, by rw [createNewWriter_defaults]; exact h⟩

theorem handleFinalizeChunk_heartbeat (now : ℚ) (fenv : FinishEnv) (senv : SaveEnv)
    (c : Bool) (s : HandlerState) :
    (handleFinalizeChunk now fenv senv c s).1.defaults.extensionHeartbeat
      = s.defaults.extensionHeartbeat := by
  unfold handleFinalizeChunk
  split
  · rfl
  · cases hw : s.writer with
    | none =>
      simp only [hw]
      rw [createNewWriter_defaults]
    | some w =>
      cases hf : (finishWithAudio fenv w).1 with
      | error e =>
        simp only [hw, hf]
        rw [createNewWriter_defaults]
      | ok r =>
        simp only [hw, hf]
        rw [createNewWriter_defaults]
        exact saveChunkToContainer_heartbeat senv now r _

/-- Claim C9 counterexample: cleanupOldRecordings, run by the producer at
broadcast start, removes a record from the chunk handoff queue that is not
replaced by any upsert, so the writer side does remove records. -/
theorem c9_counterexample :
    scenEntry1 ∈ ({ initialDefaults with
        pendingChunks := [scenEntry1] } : SharedDefaults).pendingChunks
      ∧ scenEntry1 ∉ (cleanupOldRecordings
        { initialDefaults with pendingChunks := [scenEntry1] }).pendingChunks := by
  constructor
  · simp
  · simp [cleanupOldRecordings]

/-- Claim C9 (amended): within a broadcast session no chunk-lifecycle
operation (mark, frame routing, finalize) removes a record from the chunk
handoff queue except the same-chunkId replacement performed by the upsert
during a save; however, the producer clears the entire stale queue when a
new broadcast session starts (cleanupOldRecordings). -/
theorem c9_no_removal_except_upsert :
    (∀ t fenv g c s, (handleMarkChunk t fenv g c s).defaults.pendingChunks
        = s.defaults.pendingChunks)
      ∧ (∀ env g b s, (handlerProcessFrame env g b s).defaults.pendingChunks
          = s.defaults.pendingChunks)
      ∧ (∀ now fenv senv c s, ∀ e ∈ s.defaults.pendingChunks,
          e ∉ (handleFinalizeChunk now fenv senv c s).1.defaults.pendingChunks →
          ∃ id, s.pendingChunkId = some id ∧ e.chunkId = some id)
      ∧ (∀ d, (cleanupOldRecordings d).pendingChunks = []) := by
  refine ⟨?_, ?_, ?_, fun d => rfl⟩
  · intro t fenv g c s
    rw [handleMarkChunk_defaults]
  · intro env g b s
    exact handlerProcessFrame_pendingChunks env g b s
  · intro now fenv senv c s e he hne
    rcases handleFinalizeChunk_queue now fenv senv c s with hq | ⟨entry, hent, hq⟩
    · rw [hq] at hne
      exact absurd he hne
    · rw [hq] at hne
      unfold upsertChunk at hne
      cases hp : s.pendingChunkId with
      | none =>
        rw [hp] at hne
        simp only [List.mem_append, not_or] at hne
        exact absurd he hne.1
      | some id =>
        rw [hp] at hne
        simp only [List.mem_append, List.mem_filter, not_or] at hne
        obtain ⟨hnf, -⟩ := hne
        refine ⟨id, rfl, ?_⟩
        by_contra hcon
        exact hnf ⟨he, by simp [hcon]⟩

theorem c9_witness :
    (handleMarkChunk 100 allFin true true initialHandler).defaults.pendingChunks
        = initialHandler.defaults.pendingChunks
      ∧ (cleanupOldRecordings initialDefaults).pendingChunks = [] := by
  have h := c9_no_removal_except_upsert
  exact ⟨h.1 100 allFin true true initialHandler, h.2.2.2 initialDefaults⟩

/-- Claim C8 is a code bug: the consumer-side liveness rule reads the
ExtensionHeartbeat key and reports alive exactly when a positive heartbeat
lies within 5 seconds of now, but no producer operation ever writes that
key: the status snapshot writes only the mic, capturing, and
chunk-started-at keys, so the consumer always reports isAlive false even
while the extension is actively publishing status. -/
theorem c8_heartbeat_never_written (g : Bool) (s : HandlerState)
    (d : SharedDefaults) (now t : ℚ) (fenv : FinishEnv) (senv : SaveEnv)
    (c : Bool) (r : FinishResult) :
    (updateExtensionStatus g s).defaults.extensionHeartbeat
        = s.defaults.extensionHeartbeat
      ∧ (clearExtensionStatus g s).defaults.extensionHeartbeat
        = s.defaults.extensionHeartbeat
      ∧ (cleanupOldRecordings d).extensionHeartbeat = d.extensionHeartbeat
      ∧ (saveChunkToContainer senv now r s).1.defaults.extensionHeartbeat
        = s.defaults.extensionHeartbeat
      ∧ (handleMarkChunk t fenv g c s).defaults.extensionHeartbeat
        = s.defaults.extensionHeartbeat
      ∧ (handleFinalizeChunk now fenv senv c s).1.defaults.extensionHeartbeat
        = s.defaults.extensionHeartbeat
      ∧ ((getExtensionStatus true d now).isAlive = true ↔
          ∃ hb, d.extensionHeartbeat = some hb ∧ 0 < hb ∧ now - hb < 5)
      ∧ (s.defaults.extensionHeartbeat = none →
          (getExtensionStatus g (updateExtensionStatus g s).defaults now).isAlive
            = false) := by
  refine ⟨updateExtensionStatus_heartbeat g s, ?_, rfl,
    saveChunkToContainer_heartbeat senv now r s,
    by rw [handleMarkChunk_defaults],
    handleFinalizeChunk_heartbeat now fenv senv c s, ?_, ?_⟩
  · unfold clearExtensionStatus
    split <;> rfl
  · unfold getExtensionStatus
    cases hh : d.extensionHeartbeat with
    | none => simp [hh]
    | some hb => simp [hh, decide_eq_true_eq]
  · intro hnone
    unfold getExtensionStatus
    cases g with
    | false => rfl
    | true =>
      have hpres : (updateExtensionStatus true s).defaults.extensionHeartbeat = none := by
        rw [updateExtensionStatus_heartbeat]
        exact hnone
      simp [hpres]

theorem c8_witness :
    (updateExtensionStatus true initialHandler).defaults.extensionHeartbeat
        = initialHandler.defaults.extensionHeartbeat
      ∧ (getExtensionStatus true
          (updateExtensionStatus true initialHandler).defaults 100).isAlive = false := by
  have h := c8_heartbeat_never_written true initialHandler initialDefaults 100 100
    allFin allSave true { videoURL := "v", audioURL := none, appAudioURL := none }
  exact ⟨h.1, h.2.2.2.2.2.2.2 rfl⟩

theorem appendSilenceTotal_some (ready : ℕ → Bool) (device dur : ℚ) (fmt : AudioFormat)
    (hready : ∀ i, ready i = true) (hdur : 0 < dur)
    (hts : 0 < rhaz (effectiveRate device fmt)) :
    (appendSilenceTotal ready device (some fmt) dur : ℤ)
      = rhaz (dur * (rhaz (effectiveRate device fmt) : ℚ)) := by
  have hq : 0 < dur * (rhaz (effectiveRate device fmt) : ℚ) := by
    apply mul_pos hdur
    exact_mod_cast hts
  have hn : 0 ≤ rhaz (dur * (rhaz (effectiveRate device fmt) : ℚ)) :=
    rhaz_nonneg (le_of_lt hq)
  unfold appendSilenceTotal
  rw [if_neg (not_not_intro hdur)]
  simp only [Option.getD_some]
  rw [if_neg (not_not_intro hts)]
  by_cases h0 : 0 < rhaz (dur * (rhaz (effectiveRate device fmt) : ℚ))
  · rw [if_neg (not_not_intro h0)]
    rw [silenceLoop_all_ready ready hready]
    exact Int.toNat_of_nonneg hn
  · rw [if_pos h0]
    push_cast
    omega

theorem micPadTimescale_eq (env : FinishEnv) (w : WriterState) (fmt : AudioFormat)
    (hfmt : w.micFormat = some fmt) :
    micPadTimescale env w = rhaz (effectiveRate env.deviceSampleRate fmt) := by
  unfold micPadTimescale
  rw [hfmt, Option.getD_some]

theorem micPadSamples_eq (env : FinishEnv) (w : WriterState) (fmt : AudioFormat)
    (s0 : ℚ)
    (hsep : w.separateAudioFile = true) (hws : w.hasSepWriter = true)
    (hst : w.micWriterStatus = WriterStatus.writing)
    (hss : w.sessionStartTime = some s0)
    (hv : 0 < w.lastVideoEndTime) (hm : 0 < w.lastMicEndTime)
    (hfmt : w.micFormat = some fmt) :
    micPadSamples env w
      = if w.lastMicEndTime < w.lastVideoEndTime
        then appendSilenceTotal env.micReady env.deviceSampleRate (some fmt)
          (w.lastVideoEndTime - w.lastMicEndTime)
        else 0 := by
  unfold micPadSamples
  rw [if_pos ⟨hv, by rw [hss]; exact rfl, hsep, hws, hst⟩]
  simp only []
  rw [if_pos hm, hfmt]

theorem micFileEnd_eq (env : FinishEnv) (w : WriterState)
    (hm : 0 < w.lastMicEndTime) :
    micFileEnd env w = w.lastMicEndTime
      + (micPadSamples env w : ℚ) / ((micPadTimescale env w : ℤ) : ℚ) := by
  unfold micFileEnd
  simp only []
  rw [if_pos hm]

theorem appPadTimescale_eq (env : FinishEnv) (w : WriterState) (fmt : AudioFormat)
    (hfmt : w.appFormat = some fmt) :
    appPadTimescale env w = rhaz (effectiveRate env.deviceSampleRate fmt) := by
  unfold appPadTimescale
  rw [hfmt, Option.getD_some]

theorem appPadSamples_eq (env : FinishEnv) (w : WriterState) (fmt : AudioFormat)
    (s0 : ℚ)
    (hsep : w.separateAudioFile = true) (hwa : w.hasAppWriter = true)
    (hst : w.appWriterStatus = WriterStatus.writing)
    (hss : w.sessionStartTime = some s0)
    (hv : 0 < w.lastVideoEndTime) (hm : 0 < w.lastAppAudioEndTime)
    (hfmt : w.appFormat = some fmt) :
    appPadSamples env w
      = if w.lastAppAudioEndTime < w.lastVideoEndTime
        then appendSilenceTotal env.appReady env.deviceSampleRate (some fmt)
          (w.lastVideoEndTime - w.lastAppAudioEndTime)
        else 0 := by
  unfold appPadSamples
  rw [if_pos ⟨hv, by rw [hss]; exact rfl, hsep, hwa, hst⟩]
  simp only []
  rw [if_pos hm, hfmt]

theorem appFileEnd_eq (env : FinishEnv) (w : WriterState)
    (hm : 0 < w.lastAppAudioEndTime) :
    appFileEnd env w = w.lastAppAudioEndTime
      + (appPadSamples env w : ℚ) / ((appPadTimescale env w : ℤ) : ℚ) := by
  unfold appFileEnd
  simp only []
  rw [if_pos hm]

theorem padTrack_spec (ready : ℕ → Bool) (device videoEnd lastEnd : ℚ)
    (fmt : AudioFormat) (pad : ℕ)
    (hps : pad = if lastEnd < videoEnd
        then appendSilenceTotal ready device (some fmt) (videoEnd - lastEnd)
        else 0)
    (hts : 2 ≤ rhaz (effectiveRate device fmt))
    (hready : ∀ i, ready i = true) :
    (videoEnd ≤ lastEnd → pad = 0)
      ∧ (lastEnd < videoEnd →
          (pad : ℤ) = rhaz ((videoEnd - lastEnd)
            * (rhaz (effectiveRate device fmt) : ℚ)))
      ∧ (lastEnd ≤ videoEnd →
          |(videoEnd - lastEnd)
            - (pad : ℚ) / ((rhaz (effectiveRate device fmt) : ℤ) : ℚ)| < 1/2) := by
  have hT0 : (0 : ℤ) < rhaz (effectiveRate device fmt) := by omega
  have hTQ : (0 : ℚ) < ((rhaz (effectiveRate device fmt) : ℤ) : ℚ) := by
    exact_mod_cast hT0
  have hTQ2 : (2 : ℚ) ≤ ((rhaz (effectiveRate device fmt) : ℤ) : ℚ) := by
    exact_mod_cast hts
  have hA : videoEnd ≤ lastEnd → pad = 0 := by
    intro hle
    rw [hps, if_neg (not_lt.mpr hle)]
  have hB : lastEnd < videoEnd →
      (pad : ℤ) = rhaz ((videoEnd - lastEnd)
        * (rhaz (effectiveRate device fmt) : ℚ)) := by
    intro hlt
    rw [hps, if_pos hlt]
    exact appendSilenceTotal_some ready device _ fmt hready (by linarith) hT0
  refine ⟨hA, hB, ?_⟩
  intro hle
  rcases lt_or_eq_of_le hle with hlt | heq
  · have hcast : ((pad : ℕ) : ℚ)
        = ((rhaz ((videoEnd - lastEnd)
            * (rhaz (effectiveRate device fmt) : ℚ)) : ℤ) : ℚ) := by
      exact_mod_cast hB hlt
    have habs := abs_sub_rhaz_le ((videoEnd - lastEnd)
        * (rhaz (effectiveRate device fmt) : ℚ))
    rw [hcast]
    set T : ℚ := ((rhaz (effectiveRate device fmt) : ℤ) : ℚ) with hTdef
    set g : ℚ := videoEnd - lastEnd with hgdef
    set R : ℚ := ((rhaz (g * T) : ℤ) : ℚ) with hRdef
    have hkey : g - R / T = (g * T - R) / T := by
      field_simp
    rw [hkey, abs_div, abs_of_pos hTQ]
    rw [div_lt_iff₀ hTQ]
    have habs2 : |g * T - R| ≤ 1/2 := habs
    nlinarith [abs_nonneg (g * T - R)]
  · rw [hA (le_of_eq heq.symm), heq]
    simp

/-- Claim C1 (amended): for a finalized chunk with separate audio enabled,
each enabled separate-audio track (the mic track and the app audio track)
with at least one accepted audio frame satisfies, track by track: when the
track did not outrun the video, the padding closes the gap to within half
an audio sample, so the absolute difference between the produced video
duration and that track's audio duration is below 0.5 s; when the video
end time exceeds the track's end time the silence appended is exactly the
gap rounded to whole samples; and when the target end time is at or below
the track's last-written end time no padding is appended (and that track
may then exceed the video by an arbitrary amount). -/
theorem c1_duration_bound (env : FinishEnv) (w : WriterState) (s0 : ℚ)
    (hsep : w.separateAudioFile = true)
    (hss : w.sessionStartTime = some s0)
    (hv : 0 < w.lastVideoEndTime) :
    (∀ fmt : AudioFormat, w.hasSepWriter = true →
        w.micWriterStatus = WriterStatus.writing →
        0 < w.lastMicEndTime → w.micFormat = some fmt →
        2 ≤ rhaz (effectiveRate env.deviceSampleRate fmt) →
        (∀ i, env.micReady i = true) →
        (w.lastVideoEndTime ≤ w.lastMicEndTime → micPadSamples env w = 0)
          ∧ (w.lastMicEndTime < w.lastVideoEndTime →
              (micPadSamples env w : ℤ)
                = rhaz ((w.lastVideoEndTime - w.lastMicEndTime)
                    * (rhaz (effectiveRate env.deviceSampleRate fmt) : ℚ)))
          ∧ (w.lastMicEndTime ≤ w.lastVideoEndTime →
              |videoDuration w - micAudioDuration env w| < 1/2))
      ∧ (∀ fmt : AudioFormat, w.hasAppWriter = true →
          w.appWriterStatus = WriterStatus.writing →
          0 < w.lastAppAudioEndTime → w.appFormat = some fmt →
          2 ≤ rhaz (effectiveRate env.deviceSampleRate fmt) →
          (∀ i, env.appReady i = true) →
          (w.lastVideoEndTime ≤ w.lastAppAudioEndTime → appPadSamples env w = 0)
            ∧ (w.lastAppAudioEndTime < w.lastVideoEndTime →
                (appPadSamples env w : ℤ)
                  = rhaz ((w.lastVideoEndTime - w.lastAppAudioEndTime)
                      * (rhaz (effectiveRate env.deviceSampleRate fmt) : ℚ)))
            ∧ (w.lastAppAudioEndTime ≤ w.lastVideoEndTime →
                |videoDuration w - appAudioDuration env w| < 1/2)) := by
  constructor
  · intro fmt hws hst hm hfmt hts hready
    have hcore := padTrack_spec env.micReady env.deviceSampleRate
      w.lastVideoEndTime w.lastMicEndTime fmt (micPadSamples env w)
      (micPadSamples_eq env w fmt s0 hsep hws hst hss hv hm hfmt) hts hready
    refine ⟨hcore.1, hcore.2.1, ?_⟩
    intro hle
    have hfe := micFileEnd_eq env w hm
    have hden : videoDuration w - micAudioDuration env w
        = w.lastVideoEndTime - w.lastMicEndTime
          - (micPadSamples env w : ℚ)
            / ((rhaz (effectiveRate env.deviceSampleRate fmt) : ℤ) : ℚ) := by
      unfold videoDuration micAudioDuration
      rw [hfe, micPadTimescale_eq env w fmt hfmt]
      ring
    rw [hden]
    exact hcore.2.2 hle
  · intro fmt hwa hst hm hfmt hts hready
    have hcore := padTrack_spec env.appReady env.deviceSampleRate
      w.lastVideoEndTime w.lastAppAudioEndTime fmt (appPadSamples env w)
      (appPadSamples_eq env w fmt s0 hsep hwa hst hss hv hm hfmt) hts hready
    refine ⟨hcore.1, hcore.2.1, ?_⟩
    intro hle
    have hfe := appFileEnd_eq env w hm
    have hden : videoDuration w - appAudioDuration env w
        = w.lastVideoEndTime - w.lastAppAudioEndTime
          - (appPadSamples env w : ℚ)
            / ((rhaz (effectiveRate env.deviceSampleRate fmt) : ℤ) : ℚ) := by
      unfold videoDuration appAudioDuration
      rw [hfe, appPadTimescale_eq env w fmt hfmt]
      ring
    rw [hden]
    exact hcore.2.2 hle

/-- A writer that accepted a video frame at time 5 lasting 1 second and
then a mic audio frame at time 5 lasting 1.6 seconds, so the audio track
ends 0.6 seconds after the video track. -/
def overrunWriter : WriterState :=
  (processSampleBuffer allOk startedWriter (micFrame 5 (8/5))).2

/-- The explicit value of overrunWriter. -/
def overrunLit : WriterState :=
  { freshWriter true 0 with
    assetWriterSessionStarted := true, audioSessionStarted := true
    sessionStartTime := some 5, lastVideoEndTime := 6, lastVideoPTS := some 5
    lastVideoFrameDuration := 1, videoTrack := [5]
    micFormat := some { sampleRate := 48000 }
    lastMicEndTime := 33/5, sepMicTrack := [5], mainMicTrack := [5] }

theorem overrunWriter_eq : overrunWriter = overrunLit := by
  simp [overrunWriter, overrunLit, startedWriter, processSampleBuffer,
    captureSeparateAudioOutput, captureMicrophoneOutput, captureVideoOutput,
    startSessionIfNeeded, startAudioSessionIfNeeded, videoDurationUsed,
    audioSampleDuration, micFrame, vFrame, allOk, freshWriter]
  norm_num

theorem rhaz_48000 : rhaz (48000 : ℚ) = 48000 := by
  unfold rhaz
  rw [if_pos (by norm_num)]
  rw [Int.floor_eq_iff]
  norm_num

/-- Claim C1 counterexample: when the audio track outran the video (video
ends at 6, audio ends at 6.6, both measured from session start 5), no
padding is appended and the produced durations differ by 0.6 s, violating
the claimed 0.5 s bound even though separate audio is enabled and an
audio frame was accepted. -/
theorem c1_counterexample :
    overrunWriter.separateAudioFile = true
      ∧ 0 < overrunWriter.lastMicEndTime
      ∧ ¬ |videoDuration overrunWriter - micAudioDuration allFin overrunWriter|
        < 1/2 := by
  rw [overrunWriter_eq]
  refine ⟨rfl, by norm_num [overrunLit, freshWriter], ?_⟩
  norm_num [overrunLit, freshWriter, videoDuration, micAudioDuration, micFileEnd,
    micPadSamples, allFin, abs_sub_lt_iff]
  rw [show |(3 : ℚ)/5| = 3/5 from abs_of_pos (by norm_num)]
  norm_num

/-- A valid app audio frame. -/
def appFrame (t d : ℚ) : Frame :=
  { kind := .audioApp, pts := t, duration := d, numSamples := 1024
    format := { sampleRate := 48000 }, valid := true, dataReady := true }

/-- overrunWriter after additionally accepting an app audio frame at time 5
lasting 0.5 seconds, so the app track ends 0.5 seconds before the video. -/
def overrunWriter2 : WriterState :=
  (processSampleBuffer allOk overrunWriter (appFrame 5 (1/2))).2

/-- The explicit value of overrunWriter2. -/
def overrunLit2 : WriterState :=
  { overrunLit with
    appAudioSessionStarted := true
    appFormat := some { sampleRate := 48000 }
    lastAppAudioEndTime := 11/2, appTrack := [5] }

theorem overrunWriter2_eq : overrunWriter2 = overrunLit2 := by
  have h : overrunWriter2
      = (processSampleBuffer allOk overrunLit (appFrame 5 (1/2))).2 := by
    unfold overrunWriter2
    rw [overrunWriter_eq]
  rw [h]
  simp [overrunLit2, overrunLit, processSampleBuffer, captureAppAudioOutput,
    startAppAudioSessionIfNeeded, audioSampleDuration, appFrame, allOk,
    freshWriter]
  norm_num

theorem c1_witness :
    micPadSamples allFin overrunWriter2 = 0
      ∧ overrunWriter2.lastVideoEndTime ≤ overrunWriter2.lastMicEndTime
      ∧ |videoDuration overrunWriter2 - appAudioDuration allFin overrunWriter2|
        < 1/2 := by
  have hts : (2 : ℤ) ≤ rhaz (effectiveRate allFin.deviceSampleRate
      { sampleRate := 48000 }) := by
    have he : effectiveRate allFin.deviceSampleRate { sampleRate := 48000 }
        = (48000 : ℚ) := by
      norm_num [effectiveRate, allFin]
    rw [he, rhaz_48000]
    norm_num
  have h := c1_duration_bound allFin overrunWriter2 5
    (by rw [overrunWriter2_eq]; rfl)
    (by rw [overrunWriter2_eq]; rfl)
    (by rw [overrunWriter2_eq]; norm_num [overrunLit2, overrunLit, freshWriter])
  have hmic := h.1 { sampleRate := 48000 }
    (by rw [overrunWriter2_eq]; rfl)
    (by rw [overrunWriter2_eq]; rfl)
    (by rw [overrunWriter2_eq]; norm_num [overrunLit2, overrunLit, freshWriter])
    (by rw [overrunWriter2_eq]; rfl)
    hts
    (fun i => rfl)
  have happ := h.2 { sampleRate := 48000 }
    (by rw [overrunWriter2_eq]; rfl)
    (by rw [overrunWriter2_eq]; rfl)
    (by rw [overrunWriter2_eq]; norm_num [overrunLit2, overrunLit, freshWriter])
    (by rw [overrunWriter2_eq]; rfl)
    hts
    (fun i => rfl)
  refine ⟨hmic.1 ?_, ?_, happ.2.2 ?_⟩ <;>
    rw [overrunWriter2_eq] <;>
    norm_num [overrunLit2, overrunLit, freshWriter]

theorem c10_witness :
    tsState (captureMicrophoneOutput allOk (freshWriter true 0) (micFrame 0 1)).2
        = tsState (freshWriter true 0)
      ∧ (processSampleBuffer allOk (freshWriter true 0) (vFrame 5 1)).2.sessionStartTime
        = some 5 := by
  have h1 := c10_append_gated_state allOk (freshWriter true 0) (micFrame 0 1)
  have h2 := c10_append_gated_state allOk (freshWriter true 0) (vFrame 5 1)
  exact ⟨h1.2.2.2.1, (h2.2.2.2.2 rfl rfl rfl rfl rfl).1⟩

end NSR
